import Mathlib

/-!
Verification of the Stream Health Core (livepeer/healthy-streams) against its
specification. The Go sources are shallowly embedded: machine integers become
`Nat` (Go `time.Duration` values are nanosecond counts, timestamps millisecond
epochs), Go nilable pointers become `Option`, the concurrent `sync.Map` becomes
an association list with the sequential semantics of `Load`/`LoadOrStore`, and
channels become lists (a finite list is a closed channel). Functions that the
repository references but whose bodies are not among the exhibited sources are
modelled from the specification's words and say so in their doc comments.
-/

namespace HealthyStreams

/-! ## Time constants (Go `time` package, nanoseconds) -/

def Nanosecond : Nat := 1

def Microsecond : Nat := 1000 * Nanosecond

def Millisecond : Nat := 1000 * Microsecond

def Second : Nat := 1000 * Millisecond

def Minute : Nat := 60 * Second

def Hour : Nat := 60 * Minute

/-! ## Data model -/

abbrev ConditionType := String

/-- Modelled from the spec: the `Condition` struct (health package, body not under
`src/`): a named health signal with type, tri-state status (`none` = `unknown`,
mirroring the Go `*bool`), last-probe and last-transition timestamps (`none`
mirroring nil pointers). The optional statistics payload is omitted: no claim
depends on it. -/
structure Condition where
  condType : ConditionType
  status : Option Bool
  lastProbeTime : Option Nat
  lastTransitionsTime : Option Nat
deriving DecidableEq, Repr

/-- Modelled from the spec: the event envelope (`data.Event`, body not under `src/`).
Per section 3 an event carries a unique ID (UUID string) and an origin timestamp
(millisecond epoch); the remaining attributes (type tag, stream affiliation, region,
payload) do not bear on the claims about histories and channels, and the type tag of
task events is embedded separately below. -/
structure Event where
  id : String
  timestamp : Nat
deriving DecidableEq, Repr

/-- Modelled from the spec: the per-manifest `Status` snapshot (section 3) — manifest
ID, the derived `Healthy` condition and the list of sub-conditions — shaped as
`NewRecord` (src/unnamed/part_000) constructs it. -/
structure Status where
  manifestID : String
  healthy : Condition
  conditions : List Condition
deriving DecidableEq, Repr

/-- Modelled from the spec: `NewCondition` (health package, body not under `src/`)
constructs a condition of the given type; a nil status is `unknown` (section 3: "An
unknown status (no observation yet) is distinct from false") and with no observation
the probe and transition times stay unset. `NewRecord` calls it with the zero
timestamp and nil status. -/
def NewCondition (condType : ConditionType) (_ts : Nat) (status : Option Bool) :
    Condition :=
  { condType := condType, status := status
    lastProbeTime := none, lastTransitionsTime := none }

/-- `Record` (src/unnamed/part_000): per-manifest aggregate. The opaque per-reducer
state map (`map[int]interface{}`) is carried as an association list with opaque
values. -/
structure Record where
  manifestID : String
  conditions : List ConditionType
  pastEvents : List Event
  reducersState : List (Nat × Unit)
  lastStatus : Status
deriving DecidableEq, Repr

/-- `NewRecord` (src/unnamed/part_000): fresh record with an unnamed `Healthy`
condition and one condition per configured type, all unknown. -/
def NewRecord (mid : String) (conditions : List ConditionType) : Record :=
  { manifestID := mid
    conditions := conditions
    pastEvents := []
    reducersState := []
    lastStatus :=
      { manifestID := mid
        healthy := NewCondition "" 0 none
        conditions := conditions.map fun cond => NewCondition cond 0 none } }

/-! ## Record store (src/unnamed/part_000)

The `sync.Map` is embedded as an association list from manifest ID to `Record`;
the sequential semantics of `Load` and `LoadOrStore` are modelled exactly. -/

structure RecordStorage where
  records : List (String × Record)
deriving DecidableEq, Repr

/-- `sync.Map.Load` on the records map. -/
def RecordStorage.load (s : RecordStorage) (m : String) : Option Record :=
  (s.records.find? fun p => p.1 == m).map (·.2)

/-- `RecordStorage.Get` (src/unnamed/part_000), mirroring the Go `(*Record, bool)`
return. -/
def RecordStorage.Get (s : RecordStorage) (m : String) : Option Record × Bool :=
  match s.load m with
  | some saved => (some saved, true)
  | none => (none, false)

/-- `sync.Map.LoadOrStore`: the existing value when present (`loaded = true`), else
the given value is stored and returned. -/
def RecordStorage.loadOrStore (s : RecordStorage) (m : String) (r : Record) :
    Record × Bool × RecordStorage :=
  match s.load m with
  | some actual => (actual, true, s)
  | none => (r, false, { records := (m, r) :: s.records })

/-- `RecordStorage.GetOrCreate` (src/unnamed/part_000). -/
def RecordStorage.GetOrCreate (s : RecordStorage) (m : String)
    (conditions : List ConditionType) : Record × RecordStorage :=
  match s.Get m with
  | (some saved, _) => (saved, s)
  | (none, _) =>
    let new := NewRecord m conditions
    match s.loadOrStore m new with
    | (actual, true, s2) => (actual, s2)
    | (_, false, s2) => (new, s2)

/-- The manifest IDs present in the store. -/
def RecordStorage.keys (s : RecordStorage) : List String := s.records.map Prod.fst

/-- The store's entries for one manifest ID. -/
def RecordStorage.entriesFor (s : RecordStorage) (m : String) :
    List (String × Record) :=
  s.records.filter fun p => p.1 == m

/-! ## Health aggregation (HealthReducer) -/

/-- Tri-state condition status mirroring the Go `*bool`: `none` is `unknown`. -/
abbrev TriState := Option Bool

/-- Modelled from the spec: the aggregation rule applied by `HealthReducer`
(health/reducers package, body not under `src/`; referenced from
src/health/reducers/defaults.go). Section 3 invariant 5 and section 4.7: the
`Healthy` status is `true` iff every non-`unknown` sub-condition is `true` (and,
per 4.7, at least one sub-condition is non-`unknown`); `unknown` iff all are
`unknown`; `false` otherwise. -/
def aggregateHealthStatus (subs : List TriState) : TriState :=
  if subs.all fun s => s == none then none
  else if subs.all fun s => s != some false then some true
  else some false

/-- Modelled from the spec: "`Healthy.lastProbeTime` = max of sub-condition probe
times" (section 4.7); `none` when no sub-condition has been probed. -/
def maxProbeTime (subs : List Condition) : Option Nat :=
  (subs.filterMap Condition.lastProbeTime).foldl
    (fun acc t => some (max (acc.getD 0) t)) none

/-- Modelled from the spec: the `Healthy` condition update performed by
`HealthReducer` (section 4.7): the status is `aggregateHealthStatus` of the
sub-condition statuses; `lastProbeTime` is the max of sub-condition probe times;
`lastTransitionsTime` is unchanged when the aggregate status is unchanged, else
the current event's timestamp. -/
def reduceHealthy (prev : Condition) (subs : List Condition) (evtTimestamp : Nat) :
    Condition :=
  let newStatus := aggregateHealthStatus (subs.map (·.status))
  { condType := prev.condType
    status := newStatus
    lastProbeTime := maxProbeTime subs
    lastTransitionsTime :=
      if newStatus = prev.status then prev.lastTransitionsTime
      else some evtTimestamp }

/-! ## Reducer pipeline (src/health/reducers/defaults.go) -/

/-- The reducers of the health package. A Go `Pipeline` is a `[]health.Reducer` and
is itself a `health.Reducer`, hence the nested `pipeline` constructor. Reducer
configuration arguments are kept; behaviour is not needed for the pipeline-order
claim. -/
inductive Reducer where
  | streamState (exchange : String)
  | transcode (exchange : String) (shardPrefixes : List String)
  | multistream
  | mediaServerMetrics
  | health
  | stats (windows : List Nat)
  | pipeline (reducers : List Reducer)

mutual

/-- Execution order of a reducer: a nested pipeline runs its members in order,
left to right. -/
def Reducer.flatten : Reducer → List Reducer
  | .pipeline rs => flattenList rs
  | r => [r]

/-- Execution order of a reducer list, left to right. -/
def flattenList : List Reducer → List Reducer
  | [] => []
  | r :: rs => r.flatten ++ flattenList rs

end

/-- The primitive (non-aggregating) reducers of the default pipeline. -/
def isPrimitiveReducer : Reducer → Bool
  | .streamState _ => true
  | .transcode _ _ => true
  | .multistream => true
  | .mediaServerMetrics => true
  | _ => false

/-- `statsWindows` (src/health/reducers/defaults.go): the default stats windows. -/
def statsWindows : List Nat := [1 * Minute, 10 * Minute, 1 * Hour]

/-- `maxStatsWindow` (src/health/reducers/defaults.go):
`statsWindows[len(statsWindows)-1]`. The Go index cannot be out of bounds; the
default value of `getD` is never taken. -/
def maxStatsWindow : Nat := statsWindows.getD (statsWindows.length - 1) 0

/-- `Default` (src/health/reducers/defaults.go). Go appends the inner `Pipeline`
literal as one element of the outer pipeline (a `Pipeline` is itself a `Reducer`),
giving a nested pipeline. -/
def Default (golpExchange : String) (shardPrefixes : List String)
    (streamStateExchange : String) : Reducer :=
  let p : List Reducer :=
    if streamStateExchange != "" then [Reducer.streamState streamStateExchange]
    else []
  Reducer.pipeline (p ++
    [Reducer.pipeline
      [Reducer.transcode golpExchange shardPrefixes,
       Reducer.multistream,
       Reducer.mediaServerMetrics,
       Reducer.health,
       Reducer.stats statsWindows]])

/-- `DefaultStarTimeOffset` (src/health/reducers/defaults.go). -/
def DefaultStarTimeOffset : Nat := maxStatsWindow

/-! ## Task events (src/unnamed/part_003) -/

abbrev EventType := String

/-- `EventTypeTask` (src/unnamed/part_003). -/
def EventTypeTask : EventType := "task"

/-- Modelled from the spec: `EventTypeTranscode` (data package, body not under
`src/`) is the `transcode` tag of section 3's tag list. -/
def EventTypeTranscode : EventType := "transcode"

/-- Modelled from the spec: the `Base` event envelope (data package, body not under
`src/`) carries the type tag and stream ID it is constructed with (section 3).
Identity, timestamp and region are omitted: the claim is about the type tag. -/
structure Base where
  eventType : EventType
  streamID : String
deriving DecidableEq, Repr

/-- Modelled from the spec: `newEventBase` (data package, body not under `src/`)
builds the envelope with the given type tag and stream ID. -/
def newEventBase (t : EventType) (streamID : String) : Base :=
  { eventType := t, streamID := streamID }

/-- `TaskInfo` (src/unnamed/part_003); the opaque `Snapshot interface{}` field is
omitted. -/
structure TaskInfo where
  id : String
  taskType : String
deriving DecidableEq, Repr

/-- `TaskEvent` (src/unnamed/part_003). -/
structure TaskEvent where
  base : Base
  task : TaskInfo
deriving DecidableEq, Repr

/-- `NewTaskEvent` (src/unnamed/part_003), exactly as written: it passes
`EventTypeTranscode` — not `EventTypeTask` — to `newEventBase`. -/
def NewTaskEvent (info : TaskInfo) : TaskEvent :=
  { base := newEventBase EventTypeTranscode "", task := info }

/-! ## Events query path (src/api/handler.go) -/

/-- Modelled from the spec: the errors surfaced on the events query path
(section 7). `eventNotFound` embeds `health.ErrEventNotFound`; `plain` carries any
other error message. -/
inductive ApiError where
  | eventNotFound
  | plain (msg : String)
deriving DecidableEq, Repr

/-- The retained history strictly after the event with the given ID; `none` when no
retained event has that ID. -/
def historyAfterId : List Event → String → Option (List Event)
  | [], _ => none
  | e :: rest, eid => if e.id == eid then some rest else historyAfterId rest eid

/-- Modelled from the spec: `health.Core.SubscribeEvents` (body not under `src/`),
cursor rules of sections 4.3 and 4.5: with `lastEventID` the backlog is the history
strictly after the matching event, and `EventNotFound` when no retained event
matches (also when the cursor has fallen off the buffer); with only `from` the
backlog starts at the first event with timestamp at least `from`; with neither, the
whole retained history. A successful call registers a live channel, represented by
`Unit`. -/
def SubscribeEvents (history : List Event) (lastEventID : Option String)
    (fromTs : Option Nat) : Except ApiError (List Event × Unit) :=
  match lastEventID with
  | some eid =>
    match historyAfterId history eid with
    | some backlog => .ok (backlog, ())
    | none => .error .eventNotFound
  | none =>
    match fromTs with
    | some f => .ok (history.dropWhile fun e => e.timestamp < f, ())
    | none => .ok (history, ())

/-- Modelled from the spec: `health.Core.GetPastEvents` (body not under `src/`),
sections 4.3 and 4.5: the history events with timestamp in `[from, to)` — inclusive
on the low end, exclusive on the high end; an absent bound does not constrain;
an unknown manifest has empty history, giving an empty slice rather than an
error. -/
def GetPastEvents (history : List Event) (fromTs toTs : Option Nat) : List Event :=
  history.filter fun e =>
    (match fromTs with
     | some f => decide (f ≤ e.timestamp)
     | none => true)
    && (match toTs with
        | some t => decide (e.timestamp < t)
        | none => true)

/-- The observable outcome of `apiHandler.subscribeEvents` (src/api/handler.go): an
error response with HTTP status and errors, or the events response with the backlog
slice and whether a live subscription channel is attached. -/
inductive HandlerResponse where
  | error (status : Nat) (errs : List ApiError)
  | events (pastEvents : List Event) (subscription : Option Unit)
deriving DecidableEq, Repr

/-- A call the handler makes into `health.Core`, recorded so frame claims ("performs
no query or subscription") can be stated. -/
inductive CoreCall where
  | getPastEvents (streamID : String) (fromTs toTs : Option Nat)
  | subscribeEvents (streamID : String) (lastEventID : Option String)
      (fromTs : Option Nat)
deriving DecidableEq, Repr

/-- Modelled from the spec: `respondError` (api package, body not under `src/`)
responds with the given default status, except that an `EventNotFound` error maps
the response to HTTP 404 (section 7: "`EventNotFound` ... HTTP maps to 404"). -/
def respondError (defaultStatus : Nat) (errs : List ApiError) : HandlerResponse :=
  .error (if errs.contains ApiError.eventNotFound then 404 else defaultStatus) errs

/-- `apiHandler.subscribeEvents` (src/api/handler.go, lines 125-176), embedded after
parameter parsing (`lastEventID`, `from`, `to` and `mustFindLast` arrive parsed; a
parse error returns 400 before this logic runs). `core` gives each stream's
retained history (empty for unknown manifests). Control flow as in the source:
with `to` set, `from` is required and only `GetPastEvents` runs; otherwise
`SubscribeEvents` runs, retried without a cursor when it fails with
`ErrEventNotFound` and `mustFindLast` is false; a remaining error goes to
`respondError` with default status 500. -/
def subscribeEventsHandler (core : String → List Event) (streamID : String)
    (lastEventID : Option String) (fromTs toTs : Option Nat) (mustFindLast : Bool) :
    HandlerResponse × List CoreCall :=
  match toTs with
  | some _ =>
    match fromTs with
    | none => (respondError 400 [.plain "query 'from' is required when using 'to'"], [])
    | some _ =>
      (.events (GetPastEvents (core streamID) fromTs toTs) none,
       [.getPastEvents streamID fromTs toTs])
  | none =>
    match SubscribeEvents (core streamID) lastEventID fromTs with
    | .ok (pastEvents, sub) =>
      (.events pastEvents (some sub), [.subscribeEvents streamID lastEventID fromTs])
    | .error e =>
      if e == .eventNotFound && !mustFindLast then
        match SubscribeEvents (core streamID) none none with
        | .ok (pastEvents, sub) =>
          (.events pastEvents (some sub),
           [.subscribeEvents streamID lastEventID fromTs,
            .subscribeEvents streamID none none])
        | .error e2 =>
          (respondError 500 [e2],
           [.subscribeEvents streamID lastEventID fromTs,
            .subscribeEvents streamID none none])
      else
        (respondError 500 [e], [.subscribeEvents streamID lastEventID fromTs])

/-! ## SSE event channel (src/api/handler.go, lines 178-216)

Channels are embedded as lists; a finite list is a closed channel. The conversion
`toSSEEvent` (body not under `src/`) can fail, in which case `sendEvent` logs and
skips the event; the embedding takes the conversion as a parameter. -/

/-- One send loop of `makeSSEEventChan`: send each event in order, skipping those
that fail conversion. -/
def drainEvents {α : Type} (toSSE : Event → Option α) : List Event → List α
  | [] => []
  | e :: rest =>
    match toSSE e with
    | some s => s :: drainEvents toSSE rest
    | none => drainEvents toSSE rest

/-- The goroutine of `makeSSEEventChan` when a live subscription exists: the backlog
loop followed by the live-channel loop. -/
def pumpEvents {α : Type} (toSSE : Event → Option α) :
    List Event → List Event → List α
  | e :: past, live =>
    (match toSSE e with
     | some s => s :: pumpEvents toSSE past live
     | none => pumpEvents toSSE past live)
  | [], live => drainEvents toSSE live

/-- `makeSSEEventChan` (src/api/handler.go): with no subscription, a closed channel
holding just the past events; with one, the backlog then the live events. -/
def makeSSEEventChan {α : Type} (toSSE : Event → Option α)
    (pastEvents : List Event) (subscription : Option (List Event)) : List α :=
  match subscription with
  | none => drainEvents toSSE pastEvents
  | some live => pumpEvents toSSE pastEvents live

/-! ## Helper lemmas -/

/-- A store whose keys are distinct holds at most one entry per manifest ID. -/
theorem entries_length_le_one (l : List (String × Record)) (m : String)
    (h : (l.map Prod.fst).Nodup) :
    (l.filter fun p => p.1 == m).length ≤ 1 := by
  induction l with
  | nil => simp
  | cons a rest ih =>
    rw [List.map_cons, List.nodup_cons] at h
    by_cases ha : (a.1 == m) = true
    · have hm : a.1 = m := beq_iff_eq.mp ha
      have hrest : (rest.filter fun p => p.1 == m) = [] := by
        rw [List.filter_eq_nil_iff]
        intro p hp hpm
        exact h.1 (by
          rw [hm]
          rw [← beq_iff_eq.mp hpm]
          exact List.mem_map_of_mem Prod.fst hp)
      simp [List.filter_cons, ha, hrest]
    · simp only [List.filter_cons, ha, if_false]
      exact ih h.2

/-- `load` misses exactly when no entry carries the manifest ID. -/
theorem load_eq_none_iff (s : RecordStorage) (m : String) :
    s.load m = none ↔ ∀ p ∈ s.records, p.1 ≠ m := by
  unfold RecordStorage.load
  simp [List.find?_eq_none]

/-- `load` after storing a fresh entry finds that entry. -/
theorem load_cons_self (l : List (String × Record)) (m : String) (r : Record) :
    RecordStorage.load ⟨(m, r) :: l⟩ m = some r := by
  simp [RecordStorage.load, List.find?_cons]

/-- `GetOrCreate` on a present manifest returns the stored record, store unchanged. -/
theorem getOrCreate_of_load_some (s : RecordStorage) (m : String)
    (conds : List ConditionType) (r : Record) (h : s.load m = some r) :
    s.GetOrCreate m conds = (r, s) := by
  simp [RecordStorage.GetOrCreate, RecordStorage.Get, h]

/-- `GetOrCreate` on an absent manifest stores and returns a fresh record. -/
theorem getOrCreate_of_load_none (s : RecordStorage) (m : String)
    (conds : List ConditionType) (h : s.load m = none) :
    s.GetOrCreate m conds
      = (NewRecord m conds, ⟨(m, NewRecord m conds) :: s.records⟩) := by
  simp [RecordStorage.GetOrCreate, RecordStorage.Get, RecordStorage.loadOrStore, h]

/-- Pointwise form of "every non-unknown status is true". -/
theorem not_some_false_iff (s : TriState) :
    (¬s = some false) ↔ (¬s = none → s = some true) := by
  cases s with
  | none => simp
  | some b => cases b <;> simp

/-- `all (== none)` says every status is unknown. -/
theorem all_unknown_iff (l : List TriState) :
    (l.all fun s => s == none) = true ↔ ∀ s ∈ l, s = none := by
  simp [List.all_eq_true]

/-- `all (!= some false)` says every non-unknown status is true. -/
theorem no_false_iff (l : List TriState) :
    (l.all fun s => s != some false) = true ↔
      ∀ s ∈ l, s ≠ none → s = some true := by
  simp only [List.all_eq_true, bne_iff_ne, ne_eq]
  constructor
  · intro h s hs
    exact (not_some_false_iff s).mp (h s hs)
  · intro h s hs
    exact (not_some_false_iff s).mpr (h s hs)

/-- The aggregate is `unknown` exactly when every sub-status is unknown. -/
theorem aggregate_none_iff (l : List TriState) :
    aggregateHealthStatus l = none ↔ ∀ s ∈ l, s = none := by
  unfold aggregateHealthStatus
  by_cases hA : (l.all fun s => s == none) = true
  · rw [if_pos hA]
    exact iff_of_true rfl ((all_unknown_iff l).mp hA)
  · rw [if_neg hA]
    have hne : ¬∀ s ∈ l, s = none := fun hc => hA ((all_unknown_iff l).mpr hc)
    by_cases hB : (l.all fun s => s != some false) = true <;> simp [hB, hne]

/-- The aggregate is `true` exactly when every non-unknown sub-status is true and at
least one sub-status is non-unknown. -/
theorem aggregate_true_iff (l : List TriState) :
    aggregateHealthStatus l = some true ↔
      (∀ s ∈ l, s ≠ none → s = some true) ∧ ∃ s ∈ l, s ≠ none := by
  unfold aggregateHealthStatus
  by_cases hA : (l.all fun s => s == none) = true
  · rw [if_pos hA]
    have hall := (all_unknown_iff l).mp hA
    constructor
    · intro h; cases h
    · rintro ⟨-, s, hs, hne⟩
      exact absurd (hall s hs) hne
  · rw [if_neg hA]
    by_cases hB : (l.all fun s => s != some false) = true
    · rw [if_pos hB]
      have hEx : ∃ s ∈ l, s ≠ none := by
        by_contra hc
        push_neg at hc
        exact hA ((all_unknown_iff l).mpr hc)
      exact iff_of_true rfl ⟨(no_false_iff l).mp hB, hEx⟩
    · rw [if_neg hB]
      have hno : ¬∀ s ∈ l, s ≠ none → s = some true :=
        fun hc => hB ((no_false_iff l).mpr hc)
      constructor
      · intro h; cases h
      · rintro ⟨h1, -⟩
        exact absurd h1 hno

/-- The aggregate is `false` exactly when some sub-status is false. -/
theorem aggregate_false_iff (l : List TriState) :
    aggregateHealthStatus l = some false ↔ ∃ s ∈ l, s = some false := by
  unfold aggregateHealthStatus
  by_cases hA : (l.all fun s => s == none) = true
  · rw [if_pos hA]
    have hall := (all_unknown_iff l).mp hA
    constructor
    · intro h; cases h
    · rintro ⟨s, hs, hf⟩
      rw [hall s hs] at hf
      cases hf
  · rw [if_neg hA]
    by_cases hB : (l.all fun s => s != some false) = true
    · rw [if_pos hB]
      have hno := (no_false_iff l).mp hB
      constructor
      · intro h; cases h
      · rintro ⟨s, hs, hf⟩
        have hsn : s ≠ none := by rw [hf]; exact Option.some_ne_none false
        have := hno s hs hsn
        rw [hf] at this
        cases this
    · rw [if_neg hB]
      have : ¬∀ s ∈ l, ¬s = some false := by
        intro hc
        apply hB
        simp only [List.all_eq_true, bne_iff_ne, ne_eq]
        exact hc
      push_neg at this
      simpa using this

/-- `historyAfterId` misses when no retained event has the ID. -/
theorem historyAfterId_eq_none (l : List Event) (eid : String)
    (h : ∀ e ∈ l, e.id ≠ eid) : historyAfterId l eid = none := by
  induction l with
  | nil => rfl
  | cons e rest ih =>
    have hne : (e.id == eid) = false := beq_eq_false_iff_ne.mpr (h e (by simp))
    simp only [historyAfterId, hne, Bool.false_eq_true, if_false]
    exact ih fun x hx => h x (List.mem_cons_of_mem e hx)

/-- The first `makeSSEEventChan` loop emits the convertible events in order. -/
theorem drainEvents_eq_filterMap {α : Type} (toSSE : Event → Option α)
    (l : List Event) : drainEvents toSSE l = l.filterMap toSSE := by
  induction l with
  | nil => rfl
  | cons e rest ih =>
    cases h : toSSE e <;> simp [drainEvents, List.filterMap_cons, h, ih]

/-- The two-loop goroutine emits the backlog's convertible events, then the live
channel's. -/
theorem pumpEvents_eq_append {α : Type} (toSSE : Event → Option α)
    (past live : List Event) :
    pumpEvents toSSE past live = past.filterMap toSSE ++ live.filterMap toSSE := by
  induction past with
  | nil => simp [pumpEvents, drainEvents_eq_filterMap]
  | cons e rest ih =>
    cases h : toSSE e <;> simp [pumpEvents, List.filterMap_cons, h, ih]

/-! ## Claims -/

/-- C1: repeated `GetOrCreate(m, C)` calls all return the first call's record and
leave the store as after the first call; a subsequent `Get(m)` returns that record;
and (given distinct keys, as any store reachable from empty has) at most one record
exists per manifest ID. -/
theorem getOrCreate_idempotent (s : RecordStorage) (m : String)
    (conds : List ConditionType) (hnd : s.keys.Nodup) :
    (s.GetOrCreate m conds).2.GetOrCreate m conds
        = ((s.GetOrCreate m conds).1, (s.GetOrCreate m conds).2)
    ∧ (s.GetOrCreate m conds).2.Get m = (some (s.GetOrCreate m conds).1, true)
    ∧ (s.GetOrCreate m conds).2.keys.Nodup
    ∧ ((s.GetOrCreate m conds).2.entriesFor m).length ≤ 1 := by
  cases h : s.load m with
  | some r =>
    rw [getOrCreate_of_load_some s m conds r h]
    refine ⟨getOrCreate_of_load_some s m conds r h, ?_, hnd, ?_⟩
    · simp [RecordStorage.Get, h]
    · exact entries_length_le_one s.records m hnd
  | none =>
    rw [getOrCreate_of_load_none s m conds h]
    have hmem : m ∉ s.records.map Prod.fst := by
      intro hc
      rcases List.mem_map.mp hc with ⟨p, hp, hpm⟩
      exact (load_eq_none_iff s m).mp h p hp hpm
    have hnd2 : (((m, NewRecord m conds) :: s.records).map Prod.fst).Nodup := by
      rw [List.map_cons, List.nodup_cons]
      exact ⟨hmem, hnd⟩
    refine ⟨?_, ?_, hnd2, ?_⟩
    · exact getOrCreate_of_load_some _ m conds _ (load_cons_self s.records m _)
    · simp [RecordStorage.Get, load_cons_self]
    · exact entries_length_le_one _ m hnd2

/-- C1 witness: the theorem applied to the empty store, manifest "m1" and the
condition list ["Transcoding"]. -/
theorem getOrCreate_idempotent_witness :
    ((RecordStorage.mk []).GetOrCreate "m1" ["Transcoding"]).2.keys.Nodup
    ∧ (((RecordStorage.mk []).GetOrCreate "m1" ["Transcoding"]).2.entriesFor
        "m1").length ≤ 1 :=
  ⟨(getOrCreate_idempotent ⟨[]⟩ "m1" ["Transcoding"] List.nodup_nil).2.2.1,
   (getOrCreate_idempotent ⟨[]⟩ "m1" ["Transcoding"] List.nodup_nil).2.2.2⟩

/-- C9: on a manifest already stored, `GetOrCreate` with any condition list returns
the stored record unchanged (its creation-time `Conditions` included; the new list is
ignored) and leaves the store unchanged; `Get` on an unknown manifest returns
`(none, false)` — `Get` is a pure lookup and inserts nothing. -/
theorem record_store_frame_effect (s : RecordStorage) (m : String)
    (conds : List ConditionType) :
    (∀ r, s.Get m = (some r, true) → s.GetOrCreate m conds = (r, s))
    ∧ ((∀ p ∈ s.records, p.1 ≠ m) → s.Get m = (none, false)) := by
  constructor
  · intro r hr
    have hl : s.load m = some r := by
      unfold RecordStorage.Get at hr
      cases h : s.load m with
      | some x =>
        rw [h] at hr
        injection hr
      | none => rw [h] at hr; cases hr
    exact getOrCreate_of_load_some s m conds r hl
  · intro h
    have : s.load m = none := (load_eq_none_iff s m).mpr h
    simp [RecordStorage.Get, this]

/-- C3: the aggregated `Healthy` status is `true` iff every non-`unknown`
sub-condition is `true` and at least one sub-condition is non-`unknown`; `unknown`
iff all sub-conditions are `unknown`; `false` otherwise (iff some sub-condition is
`false`); and the last-transition timestamp is kept exactly when the aggregate value
is unchanged, else set to the event's timestamp. -/
theorem healthy_aggregation (subs : List Condition) (prev : Condition) (ts : Nat) :
    (aggregateHealthStatus (subs.map (·.status)) = some true ↔
      (∀ c ∈ subs, c.status ≠ none → c.status = some true)
        ∧ ∃ c ∈ subs, c.status ≠ none)
    ∧ (aggregateHealthStatus (subs.map (·.status)) = none ↔
        ∀ c ∈ subs, c.status = none)
    ∧ (aggregateHealthStatus (subs.map (·.status)) = some false ↔
        ∃ c ∈ subs, c.status = some false)
    ∧ (reduceHealthy prev subs ts).lastTransitionsTime =
        (if aggregateHealthStatus (subs.map (·.status)) = prev.status
         then prev.lastTransitionsTime else some ts) := by
  refine ⟨?_, ?_, ?_, rfl⟩
  · rw [aggregate_true_iff]
    constructor
    · rintro ⟨h1, s, hs, hne⟩
      rcases List.mem_map.mp hs with ⟨c, hc, rfl⟩
      exact ⟨fun c hc => h1 c.status (List.mem_map_of_mem _ hc), c, hc, hne⟩
    · rintro ⟨h1, c, hc, hne⟩
      refine ⟨?_, c.status, List.mem_map_of_mem _ hc, hne⟩
      intro s hs
      rcases List.mem_map.mp hs with ⟨c', hc', rfl⟩
      exact h1 c' hc'
  · rw [aggregate_none_iff]
    constructor
    · intro h c hc
      exact h c.status (List.mem_map_of_mem _ hc)
    · intro h s hs
      rcases List.mem_map.mp hs with ⟨c, hc, rfl⟩
      exact h c hc
  · rw [aggregate_false_iff]
    constructor
    · rintro ⟨s, hs, hf⟩
      rcases List.mem_map.mp hs with ⟨c, hc, rfl⟩
      exact ⟨c, hc, hf⟩
    · rintro ⟨c, hc, hf⟩
      exact ⟨c.status, List.mem_map_of_mem _ hc, hf⟩

/-- C5: the SSE stream for a subscriber is the backlog's (convertible) events in
order, followed by the live channel's in order — no live event precedes a backlog
event and neither portion is reordered (`List.filterMap` keeps order); without a
subscription the closed channel holds just the backlog. -/
theorem sse_backlog_then_live {α : Type} (toSSE : Event → Option α)
    (backlog live : List Event) :
    makeSSEEventChan toSSE backlog (some live)
        = backlog.filterMap toSSE ++ live.filterMap toSSE
    ∧ makeSSEEventChan toSSE backlog none = backlog.filterMap toSSE :=
  ⟨pumpEvents_eq_append toSSE backlog live, drainEvents_eq_filterMap toSSE backlog⟩

/-- C4: with `to` supplied (and `from` present, else the 400 of C10), the handler
answers with exactly the history events with timestamp in `[from, to)` and no live
subscription — for any `from`, a `to`-bounded request never carries a subscription —
and the SSE channel is the closed finite channel of just those past events. -/
theorem time_bounded_query_no_live {α : Type} (toSSE : Event → Option α)
    (core : String → List Event) (streamID : String) (lastEventID : Option String)
    (f t : Nat) (mustFindLast : Bool) :
    subscribeEventsHandler core streamID lastEventID (some f) (some t) mustFindLast
        = (.events ((core streamID).filter fun e =>
              decide (f ≤ e.timestamp) && decide (e.timestamp < t)) none,
           [.getPastEvents streamID (some f) (some t)])
    ∧ (∀ e, e ∈ GetPastEvents (core streamID) (some f) (some t)
          ↔ e ∈ core streamID ∧ f ≤ e.timestamp ∧ e.timestamp < t)
    ∧ (∀ fromTs pastEvents sub,
        (subscribeEventsHandler core streamID lastEventID fromTs (some t)
            mustFindLast).1 = .events pastEvents sub → sub = none)
    ∧ makeSSEEventChan toSSE (GetPastEvents (core streamID) (some f) (some t)) none
        = (GetPastEvents (core streamID) (some f) (some t)).filterMap toSSE := by
  refine ⟨rfl, ?_, ?_, drainEvents_eq_filterMap toSSE _⟩
  · intro e
    simp [GetPastEvents, List.mem_filter, and_assoc]
  · intro fromTs pastEvents sub hres
    cases fromTs with
    | none => cases hres
    | some f' =>
      injection hres with h1 h2
      exact h2.symm

/-- C10: a request with `to` but no `from` is answered 400 with exactly the error
"query 'from' is required when using 'to'", and the handler performs no core query
and no subscription (empty call trace). -/
theorem to_without_from_bad_request (core : String → List Event) (streamID : String)
    (lastEventID : Option String) (t : Nat) (mustFindLast : Bool) :
    subscribeEventsHandler core streamID lastEventID none (some t) mustFindLast
        = (.error 400 [.plain "query 'from' is required when using 'to'"], []) := by
  rfl

/-- C2: with a `lastEventID` found nowhere in the retained history: when
`mustFindLast` is true, the `EventNotFound` failure surfaces as HTTP 404; when
false, the handler retries `SubscribeEvents` without a cursor and the subscription
replays from the start of the buffer (full retained history as backlog, live channel
attached). -/
theorem unknown_cursor_handling (core : String → List Event) (streamID eid : String)
    (fromTs : Option Nat) (hnf : ∀ e ∈ core streamID, e.id ≠ eid) :
    subscribeEventsHandler core streamID (some eid) fromTs none true
        = (.error 404 [.eventNotFound],
           [.subscribeEvents streamID (some eid) fromTs])
    ∧ subscribeEventsHandler core streamID (some eid) fromTs none false
        = (.events (core streamID) (some ()),
           [.subscribeEvents streamID (some eid) fromTs,
            .subscribeEvents streamID none none]) := by
  have hafter : historyAfterId (core streamID) eid = none :=
    historyAfterId_eq_none _ _ hnf
  constructor
  · simp [subscribeEventsHandler, SubscribeEvents, hafter, respondError]
  · simp [subscribeEventsHandler, SubscribeEvents, hafter, respondError]

/-- C2 witness: a one-event history with ID "a" queried with cursor "b". -/
theorem unknown_cursor_handling_witness :
    subscribeEventsHandler (fun _ => [{ id := "a", timestamp := 5 }]) "m1"
        (some "b") none none true
      = (.error 404 [.eventNotFound], [.subscribeEvents "m1" (some "b") none]) :=
  (unknown_cursor_handling (fun _ => [{ id := "a", timestamp := 5 }]) "m1" "b" none
    (by decide)).1

/-- C6: `NewTaskEvent` tags the event `EventTypeTranscode` ("transcode"), not
`EventTypeTask` ("task") as the spec requires of a task event — evaluated at the
concrete failing input `TaskInfo{ID:"task-1", Type:"export"}`. -/
theorem newTaskEvent_wrong_type_tag :
    (NewTaskEvent { id := "task-1", taskType := "export" }).base.eventType
        = EventTypeTranscode
    ∧ (NewTaskEvent { id := "task-1", taskType := "export" }).base.eventType
        ≠ EventTypeTask :=
  ⟨rfl, by decide⟩

/-- C7: in every `Default` pipeline — with or without a stream-state exchange — the
flattened execution order puts `HealthReducer` after all primitive reducers and
`StatsReducer` last, after `HealthReducer`. -/
theorem default_pipeline_order (g : String) (sp : List String) (sse : String) :
    ∃ pre,
      (Default g sp sse).flatten
          = pre ++ [Reducer.health, Reducer.stats statsWindows]
      ∧ ∀ r ∈ pre, isPrimitiveReducer r = true := by
  by_cases h : sse = ""
  · refine ⟨[Reducer.transcode g sp, Reducer.multistream,
      Reducer.mediaServerMetrics], ?_, ?_⟩
    · simp [Default, h, Reducer.flatten, flattenList]
    · intro r hr
      simp only [List.mem_cons, List.not_mem_nil, or_false] at hr
      rcases hr with rfl | rfl | rfl <;> rfl
  · refine ⟨[Reducer.streamState sse, Reducer.transcode g sp, Reducer.multistream,
      Reducer.mediaServerMetrics], ?_, ?_⟩
    · simp [Default, h, Reducer.flatten, flattenList]
    · intro r hr
      simp only [List.mem_cons, List.not_mem_nil, or_false] at hr
      rcases hr with rfl | rfl | rfl | rfl <;> rfl

/-- C8: the default stats windows are exactly one minute, ten minutes and one hour;
`maxStatsWindow` is one hour, the largest of them, and `DefaultStarTimeOffset`
returns it. -/
theorem default_stats_windows :
    statsWindows = [Minute, 10 * Minute, Hour]
    ∧ maxStatsWindow = Hour
    ∧ (∀ w ∈ statsWindows, w ≤ maxStatsWindow)
    ∧ statsWindows.foldr max 0 = maxStatsWindow
    ∧ DefaultStarTimeOffset = maxStatsWindow := by
  refine ⟨by decide, by decide, by decide, by decide, rfl⟩

end HealthyStreams
